import Mathlib

/-!
Shallow embedding of `src/src/pipeline.ts` from the `tasker` repository.

The source exports a single function `pipe(tasks)` returning an object with a
`run(initialContext)` method.  `run` iterates the task list sequentially,
skipping falsy elements, spinning up a status notifier (`ora`) for each real
task, awaiting the task's `run` work function, merging the returned partial
context into the running context via object spread, and wrapping any failure
into a composite `Error` with the original as `cause`.

Modelling decisions:
* JS runtime values stored in a context are modelled by `Value` (strings,
  integers, booleans and nested objects); a JS object is an association list
  `Obj := List (String × Value)` and the spread `{ ...base, ...updates }` is
  `Obj.merge`.
* A thrown JS value is `Thrown`: either a proper `Error` object (modelled by
  its `message`) or a raw non-error value; `toError` models
  `error instanceof Error ? error : new Error(String(error))`.
* `Date.now()` is an injected clock `Nat → Int`; the n-th call of the run
  reads `clock n`.  Call sites are counted exactly as in the source: one for
  `startTime`, one per executed task for `taskStart`, one per normally
  completed work function for the per-task `duration`, and one final call for
  the total duration.
* The `ora` spinner calls and the work-function invocations are recorded in an
  event trace; `notifierTrace` projects out the spinner calls and `workCalls`
  the work invocations.
* Sequential `await` of promises is modelled by direct sequential evaluation;
  the work function and the `onSuccess` callback may throw (return
  `Except.error`), matching that both run inside the source's `try` block.
  `onError` is modelled as the spec types it: a plain string-returning
  function.
-/

namespace Tasker

/-- A JS runtime value as far as the pipeline is concerned: strings, numbers,
booleans, and (possibly nested) plain objects. -/
inductive Value where
  | vstr : String → Value
  | vint : Int → Value
  | vbool : Bool → Value
  | vobj : List (String × Value) → Value
deriving Repr

/-- A JS plain object: an association list of fields, keys unique. -/
abbrev Obj := List (String × Value)

namespace Obj

/-- Whether object `o` has key `k` (`k in o`). -/
def hasKey (o : Obj) (k : String) : Bool := o.any (fun p => p.1 == k)

/-- Property lookup `o[k]`, `none` when absent. -/
def get (o : Obj) (k : String) : Option Value := (o.find? (fun p => p.1 == k)).map (·.2)

/-- The object spread `{ ...base, ...updates }` from `pipeline.ts` line 56:
keys of `base` in order, each overridden by `updates` when present there,
followed by the keys appearing only in `updates`.  Builds a fresh list, leaving
`base` and `updates` untouched. -/
def merge (base updates : Obj) : Obj :=
  base.map (fun p => match updates.get p.1 with
    | some v => (p.1, v)
    | none => p)
  ++ updates.filter (fun p => ! base.hasKey p.1)

end Obj

/-- `String(v)`: the JS string conversion applied by
`new Error(String(error))` to a non-error thrown value. -/
def stringOfValue : Value → String
  | .vstr s => s
  | .vint n => toString n
  | .vbool b => if b then "true" else "false"
  | .vobj _ => "[object Object]"

/-- A JS `Error` object, modelled by its `message`. -/
structure JsError where
  message : String
deriving Repr, DecidableEq

/-- A thrown JS value: a proper `Error` or any other (raw) value. -/
inductive Thrown where
  | err : JsError → Thrown
  | raw : Value → Thrown
deriving Repr

/-- `error instanceof Error ? error : new Error(String(error))`
(`pipeline.ts` line 59). -/
def toError : Thrown → JsError
  | .err e => e
  | .raw v => ⟨stringOfValue v⟩

/-- The composite failure message
`` Task "<name>" failed: <message> `` (`pipeline.ts` line 62). -/
def compositeMessage (name msg : String) : String :=
  "Task \"" ++ name ++ "\" failed: " ++ msg

/-- The composite failure thrown by the executor: its message and its
`cause` (the normalized original error). -/
structure PipeError where
  message : String
  cause : JsError
deriving Repr, DecidableEq

/-- One observable call of the run: the three notifier (ora spinner)
operations, plus the invocation of a task's work function. -/
inductive Event where
  | start : String → Event
  | succeed : String → Event
  | fail : String → Event
  | call : String → Event
deriving Repr, DecidableEq

/-- Keep only the notifier (spinner) calls of a trace. -/
def notifierTrace (evs : List Event) : List Event :=
  evs.filter (fun e => match e with
    | .call _ => false
    | _ => true)

/-- The names of the work functions invoked, in invocation order. -/
def workCalls (evs : List Event) : List String :=
  evs.filterMap (fun e => match e with
    | .call n => some n
    | _ => none)

/-- A task descriptor (`interface Task` in `pipeline.ts`): name, work
function (the descriptor's `run` field), and the optional message callbacks.
The work function either throws or returns `none` (JS `undefined`, a
void-returning task) or a partial context update.  `onSuccess` runs inside the
source's `try` block, so it too may throw. -/
structure Task where
  name : String
  run : Obj → Except Thrown (Option Obj)
  onSuccess : Option (Obj → Int → Except Thrown String)
  onError : Option (JsError → String)

/-- An absence marker: the falsy values admitted by the list element type
`Task<TContext> | false | null | undefined`. -/
inductive Marker where
  | mfalse
  | mnull
  | mundefined
deriving Repr, DecidableEq

/-- An element of the task list: a real task descriptor or an absence
marker. -/
inductive TaskElem where
  | task : Task → TaskElem
  | marker : Marker → TaskElem

/-- Whether a list element is a real task (truthy in JS: the `!task` test on
line 46 of `pipeline.ts` is false exactly on real task objects). -/
def isRealTask : TaskElem → Bool
  | .task _ => true
  | .marker _ => false

/-- The task list with the absence markers removed. -/
def removeMarkers (elems : List TaskElem) : List TaskElem :=
  elems.filter isRealTask

/-- The result of the loop body over the remaining task list: the events this
part produced, the next `Date.now()` call index, and either the final context
or the composite error that aborts the run. -/
abbrev LoopResult := List Event × Nat × Except PipeError Obj

/-- The `catch` block of `pipeline.ts` lines 58-63, reached when either the
work function or `onSuccess` throws `thrown`: normalize the error, compute the
fail message (`onError` if supplied, else the task name), and pair it with the
composite error whose message is `` Task "<name>" failed: <message> `` and
whose `cause` is the normalized original. -/
def handleFailure (t : Task) (thrown : Thrown) : String × PipeError :=
  let err := toError thrown
  (match t.onError with
   | some g => g err
   | none => t.name,
   ⟨compositeMessage t.name err.message, err⟩)

/-- One iteration of the `for` loop body for a real task (`pipeline.ts` lines
47-63), entered with context `ctx` and `clock i` as the next `Date.now()`
reading: read `taskStart`; `ora(task.name).start()`; invoke the work function
(recorded as a `call` event); on normal completion default the update to the
empty object (`??` on line 51), read the per-task duration, build the success
message (`onSuccess` if supplied, else the task name — still inside `try`),
notify `succeed`, and continue (`.ok`) with the merged context; on a throw
from the work function or from `onSuccess`, notify `fail` and abort (`.error`)
with the composite error.  On the work-throw path the per-task duration was
never read, so the clock index advances by 1 instead of 2. -/
def stepTask (clock : Nat → Int) (t : Task) (ctx : Obj) (i : Nat) :
    List Event × Nat × Except PipeError Obj :=
  let taskStart := clock i
  match t.run ctx with
  | .ok updatesOpt =>
    let updates := updatesOpt.getD []
    let duration := clock (i + 1) - taskStart
    match (match t.onSuccess with
           | some f => f ctx duration
           | none => .ok t.name) with
    | .ok message =>
      ([Event.start t.name, Event.call t.name, Event.succeed message], i + 2,
       .ok (Obj.merge ctx updates))
    | .error thrown =>
      let h := handleFailure t thrown
      ([Event.start t.name, Event.call t.name, Event.fail h.1], i + 2, .error h.2)
  | .error thrown =>
    let h := handleFailure t thrown
    ([Event.start t.name, Event.call t.name, Event.fail h.1], i + 1, .error h.2)

/-- The `for (const task of tasks)` loop of `pipeline.ts` lines 45-64: skip
falsy elements; otherwise run the loop body and either continue with the
merged context or abort the whole run with the composite error. -/
def runLoop (clock : Nat → Int) : List TaskElem → Obj → Nat → LoopResult
  | [], ctx, i => ([], i, .ok ctx)
  | .marker _ :: rest, ctx, i => runLoop clock rest ctx i
  | .task t :: rest, ctx, i =>
    match stepTask clock t ctx i with
    | (evs, i', .ok ctx') =>
      let res := runLoop clock rest ctx' i'
      (evs ++ res.1, res.2.1, res.2.2)
    | (evs, i', .error e) => (evs, i', .error e)

/-- `pipe(tasks).run(initialContext)` (`pipeline.ts` lines 40-68): record the
start time, run the loop, and on success return the final context with the
total elapsed time; a failure propagates as rejection.  The first component is
the full event trace of the invocation. -/
def pipeRun (clock : Nat → Int) (tasks : List TaskElem) (initialContext : Obj) :
    List Event × Except PipeError (Obj × Int) :=
  let startTime := clock 0
  let res := runLoop clock tasks initialContext 1
  match res.2.2 with
  | .ok ctx => (res.1, .ok (ctx, clock res.2.1 - startTime))
  | .error e => (res.1, .error e)


theorem Obj.get_cons (p : String × Value) (o : Obj) (k : String) :
    Obj.get (p :: o) k = if p.1 = k then some p.2 else Obj.get o k := by
  by_cases h : p.1 = k <;> simp [Obj.get, List.find?_cons, h]

theorem Obj.hasKey_cons (p : String × Value) (o : Obj) (k : String) :
    Obj.hasKey (p :: o) k = (if p.1 = k then true else Obj.hasKey o k) := by
  by_cases h : p.1 = k <;> simp [Obj.hasKey, h]

theorem Obj.hasKey_eq_isSome (o : Obj) (k : String) :
    o.hasKey k = (o.get k).isSome := by
  induction o with
  | nil => rfl
  | cons p rest ih =>
    rw [Obj.hasKey_cons, Obj.get_cons]
    by_cases h : p.1 = k <;> simp [h, ih]

theorem Obj.get_append (xs ys : Obj) (k : String) :
    Obj.get (xs ++ ys) k = (Obj.get xs k).or (Obj.get ys k) := by
  induction xs with
  | nil => simp [Obj.get]
  | cons p rest ih =>
    rw [List.cons_append, Obj.get_cons, Obj.get_cons]
    by_cases h : p.1 = k <;> simp [h, ih]

theorem Obj.get_filter_pos (u : Obj) (q : String × Value → Bool) (k : String)
    (hq : ∀ p : String × Value, p.1 = k → q p = true) :
    Obj.get (u.filter q) k = Obj.get u k := by
  induction u with
  | nil => rfl
  | cons p rest ih =>
    rw [List.filter_cons]
    by_cases h : p.1 = k
    · rw [hq p h]
      simp [Obj.get_cons, h]
    · cases hqp : q p <;> simp [Obj.get_cons, h, ih]

theorem Obj.get_filter_neg (u : Obj) (q : String × Value → Bool) (k : String)
    (hq : ∀ p : String × Value, p.1 = k → q p = false) :
    Obj.get (u.filter q) k = none := by
  induction u with
  | nil => rfl
  | cons p rest ih =>
    rw [List.filter_cons]
    by_cases h : p.1 = k
    · rw [hq p h]; simpa using ih
    · cases hqp : q p <;> simp [Obj.get_cons, h, ih]

theorem Obj.get_map_override (b u : Obj) (k : String) :
    Obj.get (b.map (fun p => match Obj.get u p.1 with
      | some v => (p.1, v)
      | none => p)) k
    = (Obj.get b k).map (fun v => (Obj.get u k).getD v) := by
  induction b with
  | nil => rfl
  | cons p rest ih =>
    rw [List.map_cons, Obj.get_cons, Obj.get_cons]
    have hfst : (match Obj.get u p.1 with
        | some v => (p.1, v)
        | none => p).1 = p.1 := by
      cases Obj.get u p.1 <;> rfl
    have hsnd : (match Obj.get u p.1 with
        | some v => (p.1, v)
        | none => p).2 = (Obj.get u p.1).getD p.2 := by
      cases Obj.get u p.1 <;> rfl
    rw [hfst, hsnd]
    by_cases h : p.1 = k
    · subst h; simp
    · simp [h, ih]

theorem Obj.get_merge (b u : Obj) (k : String) :
    (Obj.merge b u).get k = (u.get k).or (b.get k) := by
  rw [Obj.merge, Obj.get_append, Obj.get_map_override]
  cases hb : Obj.get b k with
  | some v =>
    have hbk : Obj.hasKey b k = true := by
      rw [Obj.hasKey_eq_isSome, hb]; rfl
    rw [Obj.get_filter_neg u _ k (fun p hp => by rw [hp, hbk]; rfl)]
    cases hu : Obj.get u k <;> simp
  | none =>
    have hbk : Obj.hasKey b k = false := by
      rw [Obj.hasKey_eq_isSome, hb]; rfl
    rw [Obj.get_filter_pos u _ k (fun p hp => by rw [hp, hbk]; rfl)]
    cases hu : Obj.get u k <;> simp

theorem Obj.hasKey_merge (b u : Obj) (k : String) :
    (Obj.merge b u).hasKey k = (b.hasKey k || u.hasKey k) := by
  rw [Obj.hasKey_eq_isSome, Obj.get_merge, Obj.hasKey_eq_isSome, Obj.hasKey_eq_isSome]
  cases Obj.get u k <;> cases Obj.get b k <;> simp

theorem Obj.merge_nil (b : Obj) : Obj.merge b [] = b := by
  rw [Obj.merge]
  simp [Obj.get]

theorem runLoop_append (clock : Nat → Int) (xs ys : List TaskElem) (ctx : Obj) (i : Nat) :
    runLoop clock (xs ++ ys) ctx i =
      (match runLoop clock xs ctx i with
       | (evs, i', .ok ctx') =>
         let r := runLoop clock ys ctx' i'
         (evs ++ r.1, r.2.1, r.2.2)
       | (evs, i', .error e) => (evs, i', .error e)) := by
  induction xs generalizing ctx i with
  | nil => simp [runLoop]
  | cons e rest ih =>
    cases e with
    | marker m => simpa [runLoop] using ih ctx i
    | task t =>
      rw [List.cons_append]
      show (match stepTask clock t ctx i with
            | (evs, i', .ok ctx') =>
              let res := runLoop clock (rest ++ ys) ctx' i'
              (evs ++ res.1, res.2.1, res.2.2)
            | (evs, i', .error e) => (evs, i', .error e)) = _
      rcases hstep : stepTask clock t ctx i with ⟨evs, i', res⟩
      cases res with
      | ok ctx' =>
        simp only [runLoop, hstep, ih ctx' i']
        rcases hrest : runLoop clock rest ctx' i' with ⟨evs2, i2, res2⟩
        cases res2 <;> simp
      | error e => simp [runLoop, hstep]

theorem runLoop_removeMarkers (clock : Nat → Int) (elems : List TaskElem)
    (ctx : Obj) (i : Nat) :
    runLoop clock (removeMarkers elems) ctx i = runLoop clock elems ctx i := by
  induction elems generalizing ctx i with
  | nil => rfl
  | cons e rest ih =>
    cases e with
    | marker m =>
      show runLoop clock (removeMarkers rest) ctx i = runLoop clock rest ctx i
      exact ih ctx i
    | task t =>
      show (match stepTask clock t ctx i with
            | (evs, i', .ok ctx') =>
              let res := runLoop clock (removeMarkers rest) ctx' i'
              (evs ++ res.1, res.2.1, res.2.2)
            | (evs, i', .error e) => (evs, i', .error e)) = _
      rcases hstep : stepTask clock t ctx i with ⟨evs, i', res⟩
      cases res <;> simp [runLoop, hstep, ih]



inductive TraceShape : List Event → Prop where
  | nil : TraceShape []
  | failBlock (n fm : String) : TraceShape [.start n, .call n, .fail fm]
  | okBlock (n m : String) (rest : List Event) :
      TraceShape rest → TraceShape (.start n :: .call n :: .succeed m :: rest)

theorem stepTask_cases (clock : Nat → Int) (t : Task) (ctx : Obj) (i : Nat) :
    (∃ m ctx', stepTask clock t ctx i
        = ([.start t.name, .call t.name, .succeed m], i + 2, .ok ctx'))
    ∨ (∃ fm e i', stepTask clock t ctx i
        = ([.start t.name, .call t.name, .fail fm], i', .error e)) := by
  cases hrun : t.run ctx with
  | ok updatesOpt =>
    cases hmsg : (match t.onSuccess with
                  | some f => f ctx (clock (i + 1) - clock i)
                  | none => .ok t.name) with
    | ok m =>
      exact .inl ⟨m, Obj.merge ctx (updatesOpt.getD []), by simp [stepTask, hrun, hmsg]⟩
    | error thrown =>
      exact .inr ⟨(handleFailure t thrown).1, (handleFailure t thrown).2, i + 2,
        by simp [stepTask, hrun, hmsg]⟩
  | error thrown =>
    exact .inr ⟨(handleFailure t thrown).1, (handleFailure t thrown).2, i + 1,
      by simp [stepTask, hrun]⟩

theorem stepTask_ok_inv (clock : Nat → Int) (t : Task) (ctx : Obj) (i i' : Nat)
    (evs : List Event) (ctx' : Obj)
    (h : stepTask clock t ctx i = (evs, i', .ok ctx')) :
    ∃ updatesOpt, t.run ctx = .ok updatesOpt
      ∧ ctx' = Obj.merge ctx (updatesOpt.getD []) := by
  cases hrun : t.run ctx with
  | ok updatesOpt =>
    cases hmsg : (match t.onSuccess with
                  | some f => f ctx (clock (i + 1) - clock i)
                  | none => .ok t.name) with
    | ok m =>
      refine ⟨updatesOpt, rfl, ?_⟩
      simp [stepTask, hrun, hmsg] at h
      exact h.2.2.symm
    | error thrown => simp [stepTask, hrun, hmsg] at h
  | error thrown => simp [stepTask, hrun] at h

theorem traceShape_runLoop (clock : Nat → Int) (elems : List TaskElem)
    (ctx : Obj) (i : Nat) :
    TraceShape (runLoop clock elems ctx i).1 := by
  induction elems generalizing ctx i with
  | nil => exact .nil
  | cons e rest ih =>
    cases e with
    | marker m => exact ih ctx i
    | task t =>
      rcases stepTask_cases clock t ctx i with ⟨m, ctx', h⟩ | ⟨fm, err, i', h⟩
      · have := ih ctx' (i + 2)
        simp only [runLoop, h]
        exact .okBlock t.name m _ this
      · simp only [runLoop, h]
        exact .failBlock t.name fm

def realTasks (elems : List TaskElem) : List Task :=
  elems.filterMap (fun e => match e with
    | .task t => some t
    | .marker _ => none)

theorem hasKey_false_get (o : Obj) (k : String) (h : o.hasKey k = false) :
    o.get k = none := by
  rw [Obj.hasKey_eq_isSome] at h
  cases hg : Obj.get o k
  · rfl
  · rw [hg] at h; simp at h

theorem runLoop_frame (clock : Nat → Int) (elems : List TaskElem) (k : String)
    (h : ∀ t ∈ realTasks elems, ∀ c u, t.run c = .ok (some u) → u.hasKey k = false) :
    ∀ ctx i evs i' fctx, runLoop clock elems ctx i = (evs, i', .ok fctx) →
      fctx.get k = ctx.get k := by
  induction elems with
  | nil =>
    intro ctx i evs i' fctx hrun
    have : fctx = ctx := by
      have := congrArg (fun r => r.2.2) hrun
      simpa [runLoop] using this.symm
    rw [this]
  | cons e rest ih =>
    intro ctx i evs i' fctx hrun
    cases e with
    | marker m =>
      exact ih (fun t ht => h t ht) ctx i evs i' fctx hrun
    | task t =>
      rcases hstep : stepTask clock t ctx i with ⟨evs0, i0, res0⟩
      cases res0 with
      | ok ctx0 =>
        simp only [runLoop, hstep] at hrun
        rcases hr : runLoop clock rest ctx0 i0 with ⟨evs1, i1, res1⟩
        rw [hr] at hrun
        cases res1 with
        | ok fctx1 =>
          simp at hrun
          obtain ⟨hevs, hi, hf⟩ := hrun
          rcases stepTask_ok_inv clock t ctx i i0 evs0 ctx0 hstep with
            ⟨updatesOpt, hrunT, hctx0⟩
          have hrest2 : fctx.get k = ctx0.get k := by
            subst hf
            exact ih (fun t' ht' => h t' (by simp [realTasks, List.filterMap_cons] at ht' ⊢; right; exact ht'))
              ctx0 i0 evs1 i1 fctx1 hr
          rw [hrest2, hctx0]
          cases updatesOpt with
          | none => rw [Option.getD_none, Obj.merge_nil]
          | some u =>
            rw [Option.getD_some, Obj.get_merge]
            have hu : u.hasKey k = false :=
              h t (by simp [realTasks, List.filterMap_cons]) ctx u hrunT
            rw [hasKey_false_get u k hu]
            rfl
        | error e1 => simp at hrun
      | error e0 =>
        simp only [runLoop, hstep] at hrun
        simp at hrun

/-- Claim C5: a pipeline with absence markers interspersed is observably
identical to the pipeline with the markers removed: same event trace (hence
same notifier call sequence), same final context, and the same clock readings
(hence the same duration); a skipped marker contributes no timing call, no
notification and no context change. -/
theorem claim_C5 (clock : Nat → Int) (elems : List TaskElem) (ctx : Obj) :
    pipeRun clock elems ctx = pipeRun clock (removeMarkers elems) ctx := by
  unfold pipeRun
  rw [runLoop_removeMarkers]

/-- Claim C8: the event trace of every run consists, in marker-filtered task
order, of one block per executed task: `start`, then the work invocation, then
exactly one of `succeed`/`fail`; blocks of distinct tasks never interleave and
a `fail` block terminates the trace, so tasks after a failure receive no
notifier calls at all. -/
theorem claim_C8 (clock : Nat → Int) (elems : List TaskElem) (ctx : Obj) :
    TraceShape (pipeRun clock elems ctx).1 := by
  have h := traceShape_runLoop clock elems ctx 1
  rcases hr : runLoop clock elems ctx 1 with ⟨evs, i, res⟩
  rw [hr] at h
  cases res <;> simpa [pipeRun, hr] using h

/-- Claim C2: the context merge takes the union of the key sets, with the
update's value fully replacing the base's for every shared key (whatever the
value, nested objects included); consequently when two consecutive tasks both
update key `k`, the final context holds the second task's value. -/
theorem claim_C2 (b u : Obj) (k : String) (clock : Nat → Int) (nA nB : String)
    (ua ub : Obj) (vb : Value) (ctx : Obj) (hub : ub.get k = some vb) :
    ((Obj.merge b u).hasKey k = (b.hasKey k || u.hasKey k))
    ∧ ((Obj.merge b u).get k = (u.get k).or (b.get k))
    ∧ pipeRun clock
          [.task ⟨nA, fun _ => .ok (some ua), none, none⟩,
           .task ⟨nB, fun _ => .ok (some ub), none, none⟩] ctx
        = ([.start nA, .call nA, .succeed nA, .start nB, .call nB, .succeed nB],
           .ok (Obj.merge (Obj.merge ctx ua) ub, clock 5 - clock 0))
    ∧ (Obj.merge (Obj.merge ctx ua) ub).get k = some vb := by
  refine ⟨Obj.hasKey_merge b u k, Obj.get_merge b u k, rfl, ?_⟩
  rw [Obj.get_merge, hub]
  rfl

/-- Claim C7: an empty pipeline — or one whose elements are all absence
markers — resolves with the initial context unchanged, a nonnegative duration
(for a monotone clock) and no notifier calls; the merge with the empty update
is the identity, so a void-returning task leaves the context exactly as it
was before it ran. -/
theorem claim_C7 (clock : Nat → Int) (elems : List TaskElem) (ctx b c : Obj)
    (t : Task) (i : Nat)
    (hmono : Monotone clock) (hmark : ∀ e ∈ elems, isRealTask e = false)
    (hvoid : t.run c = .ok none) (hsucc : t.onSuccess = none) :
    (pipeRun clock elems ctx = ([], .ok (ctx, clock 1 - clock 0))
      ∧ 0 ≤ clock 1 - clock 0)
    ∧ Obj.merge b [] = b
    ∧ stepTask clock t c i
        = ([.start t.name, .call t.name, .succeed t.name], i + 2, .ok c) := by
  refine ⟨⟨?_, ?_⟩, Obj.merge_nil b, ?_⟩
  · have hrl : runLoop clock elems ctx 1 = ([], 1, .ok ctx) := by
      induction elems with
      | nil => rfl
      | cons e rest ih =>
        cases e with
        | marker m => exact ih (fun e he => hmark e (List.mem_cons_of_mem _ he))
        | task t' =>
          have := hmark (.task t') (List.mem_cons_self _ _)
          simp [isRealTask] at this
    simp [pipeRun, hrl]
  · have := hmono (Nat.zero_le 1)
    omega
  · simp [stepTask, hvoid, hsucc, Obj.merge_nil]

/-- Claim C9: on a successful run, every key that no executed task's returned
update contains keeps exactly its initial value in the final context (the
merge is copy-on-write: it builds a fresh context from `base` and `updates`
without altering either, so the caller's initial context value is left
intact). -/
theorem claim_C9 (clock : Nat → Int) (elems : List TaskElem) (k : String)
    (ctx fctx : Obj) (evs : List Event) (d : Int)
    (h : ∀ t ∈ realTasks elems, ∀ c u, t.run c = .ok (some u) → u.hasKey k = false)
    (hrun : pipeRun clock elems ctx = (evs, .ok (fctx, d))) :
    fctx.get k = ctx.get k := by
  rcases hr : runLoop clock elems ctx 1 with ⟨evs1, i1, res1⟩
  cases res1 with
  | ok fctx1 =>
    have : fctx1 = fctx := by
      simp [pipeRun, hr] at hrun
      exact hrun.2.1
    exact this ▸ runLoop_frame clock elems k h ctx 1 evs1 i1 fctx1 hr
  | error e => simp [pipeRun, hr] at hrun


/-- Claim C1: when a task's work function throws, the run rejects with the
composite error whose message is exactly `` Task "<name>" failed: <m> `` for
the normalized message `m` of the thrown value, with the normalized original
attached as `cause`; the propagated error is the same for every choice of
`onError` (which only selects the notifier's fail message). -/
theorem claim_C1 (clock : Nat → Int) (pre post : List TaskElem) (t : Task)
    (oe : Option (JsError → String)) (ctx ctx0 : Obj) (evs0 : List Event)
    (i0 : Nat) (thrown : Thrown)
    (hpre : runLoop clock pre ctx 1 = (evs0, i0, .ok ctx0))
    (hfail : t.run ctx0 = .error thrown) :
    pipeRun clock (pre ++ .task { t with onError := oe } :: post) ctx
      = (evs0 ++ [.start t.name, .call t.name,
          .fail (match oe with
                 | some g => g (toError thrown)
                 | none => t.name)],
         .error ⟨compositeMessage t.name (toError thrown).message, toError thrown⟩) := by
  have hstep : stepTask clock { t with onError := oe } ctx0 i0
      = ([.start t.name, .call t.name,
          .fail (match oe with
                 | some g => g (toError thrown)
                 | none => t.name)], i0 + 1,
         .error ⟨compositeMessage t.name (toError thrown).message, toError thrown⟩) := by
    simp [stepTask, hfail, handleFailure]
  unfold pipeRun
  rw [runLoop_append, hpre]
  simp [runLoop, hstep]

/-- Claim C3: the first failing task halts the run: the trace of the whole
run ends with that task's `fail` block (so nothing after it — in particular
no later work function — is ever invoked), no `Result` is produced, and the
run rejects. -/
theorem claim_C3 (clock : Nat → Int) (pre post : List TaskElem) (t : Task)
    (ctx ctx0 : Obj) (evs0 : List Event) (i0 : Nat) (thrown : Thrown)
    (hpre : runLoop clock pre ctx 1 = (evs0, i0, .ok ctx0))
    (hfail : t.run ctx0 = .error thrown) :
    ∃ fmsg e,
      pipeRun clock (pre ++ .task t :: post) ctx
        = (evs0 ++ [.start t.name, .call t.name, .fail fmsg], .error e)
      ∧ workCalls (evs0 ++ [.start t.name, .call t.name, .fail fmsg])
          = workCalls evs0 ++ [t.name] := by
  refine ⟨(handleFailure t thrown).1, (handleFailure t thrown).2, ?_, ?_⟩
  · have hstep : stepTask clock t ctx0 i0
        = ([.start t.name, .call t.name, .fail (handleFailure t thrown).1], i0 + 1,
           .error (handleFailure t thrown).2) := by
      simp [stepTask, hfail]
    unfold pipeRun
    rw [runLoop_append, hpre]
    simp [runLoop, hstep]
  · simp [workCalls]

/-- Claim C4: when the work function completes normally, the success message
notified is `onSuccess` applied to the context as it stood BEFORE this task's
own update is merged; the merged context is used only from the continuation
of the loop onwards. -/
theorem claim_C4 (clock : Nat → Int) (t : Task) (rest : List TaskElem)
    (ctx : Obj) (i : Nat) (f : Obj → Int → Except Thrown String)
    (updatesOpt : Option Obj) (msg : String)
    (h1 : t.onSuccess = some f)
    (h2 : t.run ctx = .ok updatesOpt)
    (h3 : f ctx (clock (i + 1) - clock i) = .ok msg) :
    runLoop clock (.task t :: rest) ctx i
      = ([.start t.name, .call t.name, .succeed msg]
           ++ (runLoop clock rest (Obj.merge ctx (updatesOpt.getD [])) (i + 2)).1,
         (runLoop clock rest (Obj.merge ctx (updatesOpt.getD [])) (i + 2)).2.1,
         (runLoop clock rest (Obj.merge ctx (updatesOpt.getD [])) (i + 2)).2.2) := by
  have hstep : stepTask clock t ctx i
      = ([.start t.name, .call t.name, .succeed msg], i + 2,
         .ok (Obj.merge ctx (updatesOpt.getD []))) := by
    simp [stepTask, h1, h2, h3]
  simp [runLoop, hstep]

/-- Claim C6: a thrown value that is not an error object is wrapped, before
any message building or propagation, into an error object whose message is
the string form of the value; `onError` and the composite error's `cause`
therefore always receive an object carrying a `.message` string. -/
theorem claim_C6 (clock : Nat → Int) (t : Task) (rest : List TaskElem)
    (ctx : Obj) (i : Nat) (v : Value)
    (h : t.run ctx = .error (.raw v)) :
    toError (.raw v) = ⟨stringOfValue v⟩
    ∧ runLoop clock (.task t :: rest) ctx i
        = ([.start t.name, .call t.name,
            .fail (match t.onError with
                   | some g => g ⟨stringOfValue v⟩
                   | none => t.name)],
           i + 1,
           .error ⟨compositeMessage t.name (stringOfValue v), ⟨stringOfValue v⟩⟩) := by
  refine ⟨rfl, ?_⟩
  have hstep : stepTask clock t ctx i
      = ([.start t.name, .call t.name,
          .fail (match t.onError with
                 | some g => g ⟨stringOfValue v⟩
                 | none => t.name)],
         i + 1,
         .error ⟨compositeMessage t.name (stringOfValue v), ⟨stringOfValue v⟩⟩) := by
    simp [stepTask, h, handleFailure, toError]
  simp [runLoop, hstep]

/-- Claim C10: when the work function completes normally but the supplied
`onSuccess` callback throws, the task is treated exactly like a failure: the
notifier receives `fail` (never `succeed`), the returned update is not
merged, no later element runs, and the run aborts with the composite error
built from the `onSuccess` exception, attached as `cause`. -/
theorem claim_C10 (clock : Nat → Int) (t : Task) (rest : List TaskElem)
    (ctx : Obj) (i : Nat) (f : Obj → Int → Except Thrown String)
    (updatesOpt : Option Obj) (thrown : Thrown)
    (h1 : t.onSuccess = some f)
    (h2 : t.run ctx = .ok updatesOpt)
    (h3 : f ctx (clock (i + 1) - clock i) = .error thrown) :
    runLoop clock (.task t :: rest) ctx i
      = ([.start t.name, .call t.name,
          .fail (match t.onError with
                 | some g => g (toError thrown)
                 | none => t.name)],
         i + 2,
         .error ⟨compositeMessage t.name (toError thrown).message, toError thrown⟩) := by
  have hstep : stepTask clock t ctx i
      = ([.start t.name, .call t.name,
          .fail (match t.onError with
                 | some g => g (toError thrown)
                 | none => t.name)],
         i + 2,
         .error ⟨compositeMessage t.name (toError thrown).message, toError thrown⟩) := by
    simp [stepTask, h1, h2, h3, handleFailure]
  simp [runLoop, hstep]

/-- Witness for claim C1, instantiating P6: a task named `Failing task`
throwing `Something went wrong` makes the run reject with the exact composite
message and the original error as cause. -/
theorem claim_C1_witness :
    pipeRun (fun n => (n : Int))
        ([] ++ .task { name := "Failing task",
                       run := fun _ => .error (.err ⟨"Something went wrong"⟩),
                       onSuccess := none,
                       onError := (none : Option (JsError → String)) } :: [])
        []
      = ([.start "Failing task", .call "Failing task", .fail "Failing task"],
         .error ⟨"Task \"Failing task\" failed: Something went wrong",
                 ⟨"Something went wrong"⟩⟩) :=
  claim_C1 (fun n => (n : Int)) [] []
    ⟨"Failing task", fun _ => .error (.err ⟨"Something went wrong"⟩), none, none⟩
    none [] [] [] 1 (.err ⟨"Something went wrong"⟩) rfl rfl

/-- Witness for claim C2: a nested object under a shared key is fully
replaced by the update's object, and of two tasks both writing `k` the second
wins in the final context. -/
theorem claim_C2_witness :
    ((Obj.merge [("k", Value.vobj [("a", Value.vint 1)]), ("x", Value.vint 7)]
        [("k", Value.vobj [("b", Value.vint 2)])]).hasKey "k" = (true || true))
    ∧ ((Obj.merge [("k", Value.vobj [("a", Value.vint 1)]), ("x", Value.vint 7)]
        [("k", Value.vobj [("b", Value.vint 2)])]).get "k"
      = (some (Value.vobj [("b", Value.vint 2)])).or
          (some (Value.vobj [("a", Value.vint 1)])))
    ∧ pipeRun (fun n => (n : Int))
          [.task ⟨"A", fun _ => .ok (some [("k", Value.vint 1)]), none, none⟩,
           .task ⟨"B", fun _ => .ok (some [("k", Value.vint 2)]), none, none⟩] []
        = ([.start "A", .call "A", .succeed "A", .start "B", .call "B",
            .succeed "B"],
           .ok (Obj.merge (Obj.merge [] [("k", Value.vint 1)])
                  [("k", Value.vint 2)], 5 - 0))
    ∧ (Obj.merge (Obj.merge [] [("k", Value.vint 1)])
        [("k", Value.vint 2)]).get "k" = some (Value.vint 2) :=
  claim_C2 [("k", Value.vobj [("a", Value.vint 1)]), ("x", Value.vint 7)]
    [("k", Value.vobj [("b", Value.vint 2)])] "k" (fun n => (n : Int))
    "A" "B" [("k", Value.vint 1)] [("k", Value.vint 2)] (Value.vint 2) [] rfl

/-- Witness for claim C3, instantiating P5: with tasks A (succeeds), B
(fails), C, the run rejects right after B's fail block and C's work function
is never invoked (the trace ends at B). -/
theorem claim_C3_witness :
    ∃ fmsg e,
      pipeRun (fun n => (n : Int))
          ([.task ⟨"A", fun _ => .ok (some [("a", Value.vint 1)]), none, none⟩]
            ++ .task ⟨"B", fun _ => .error (.err ⟨"boom"⟩), none, none⟩
            :: [.task ⟨"C", fun _ => .ok (some [("c", Value.vint 3)]), none, none⟩])
          []
        = ([.start "A", .call "A", .succeed "A"]
            ++ [.start "B", .call "B", .fail fmsg], .error e)
      ∧ workCalls ([.start "A", .call "A", .succeed "A"]
            ++ [.start "B", .call "B", .fail fmsg])
          = workCalls [.start "A", .call "A", .succeed "A"] ++ ["B"] :=
  claim_C3 (fun n => (n : Int))
    [.task ⟨"A", fun _ => .ok (some [("a", Value.vint 1)]), none, none⟩]
    [.task ⟨"C", fun _ => .ok (some [("c", Value.vint 3)]), none, none⟩]
    ⟨"B", fun _ => .error (.err ⟨"boom"⟩), none, none⟩
    [] [("a", Value.vint 1)] [.start "A", .call "A", .succeed "A"] 3
    (.err ⟨"boom"⟩) rfl rfl

/-- A concrete `onSuccess` callback reporting the current `count`, used to
instantiate P7. -/
def countMsg (c : Obj) (_d : Int) : Except Thrown String :=
  .ok ("count=" ++ (match c.get "count" with
    | some (Value.vint n) => toString n
    | _ => "?"))

/-- Witness for claim C4, instantiating P7: with initial context
`count = 5` and a task returning `count = 15`, the notifier receives the
success message `count=5`, computed from the pre-update context; the merged
context takes effect only afterwards. -/
theorem claim_C4_witness :
    runLoop (fun n => (n : Int))
        [.task ⟨"T", fun _ => .ok (some [("count", Value.vint 15)]),
          some countMsg, none⟩]
        [("count", Value.vint 5)] 1
      = ([.start "T", .call "T", .succeed "count=5"], 3,
         .ok [("count", Value.vint 15)]) :=
  claim_C4 (fun n => (n : Int))
    ⟨"T", fun _ => .ok (some [("count", Value.vint 15)]), some countMsg, none⟩
    [] [("count", Value.vint 5)] 1 countMsg
    (some [("count", Value.vint 15)]) "count=5" rfl rfl rfl

/-- Witness for claim C6: a task throwing the raw number 42 is normalized to
an error object with message `42`; `onError` sees that object and the
composite error's message and cause are built from it. -/
theorem claim_C6_witness :
    toError (.raw (Value.vint 42)) = ⟨"42"⟩
    ∧ runLoop (fun n => (n : Int))
        [.task ⟨"T", fun _ => .error (.raw (Value.vint 42)), none,
          some (fun e => "saw " ++ e.message)⟩] [] 1
      = ([.start "T", .call "T", .fail "saw 42"], 2,
         .error ⟨"Task \"T\" failed: 42", ⟨"42"⟩⟩) :=
  claim_C6 (fun n => (n : Int))
    ⟨"T", fun _ => .error (.raw (Value.vint 42)), none,
      some (fun e => "saw " ++ e.message)⟩
    [] [] 1 (Value.vint 42) rfl

/-- Witness for claim C7, instantiating P4 and P8: an all-marker pipeline
with context `message = Initial` resolves to the same context with duration
1 ≥ 0 and an empty trace; the empty merge is the identity; a void-returning
task steps to exactly its incoming context. -/
theorem claim_C7_witness :
    (pipeRun (fun n => (n : Int))
        [.marker .mfalse, .marker .mnull, .marker .mundefined]
        [("message", Value.vstr "Initial")]
      = ([], .ok ([("message", Value.vstr "Initial")], 1 - 0))
      ∧ (0 : Int) ≤ 1 - 0)
    ∧ Obj.merge [("a", Value.vint 1)] [] = [("a", Value.vint 1)]
    ∧ stepTask (fun n => (n : Int))
        ⟨"Side effect task", fun _ => .ok none, none, none⟩
        [("message", Value.vstr "Test")] 1
      = ([.start "Side effect task", .call "Side effect task",
          .succeed "Side effect task"], 1 + 2,
         .ok [("message", Value.vstr "Test")]) :=
  claim_C7 (fun n => (n : Int))
    [.marker .mfalse, .marker .mnull, .marker .mundefined]
    [("message", Value.vstr "Initial")]
    [("a", Value.vint 1)] [("message", Value.vstr "Test")]
    ⟨"Side effect task", fun _ => .ok none, none, none⟩ 1
    (fun a b hab => Int.ofNat_le.mpr hab)
    (by intro e he; fin_cases he <;> rfl)
    rfl rfl

/-- Witness for claim C9: running a task that updates only `count` leaves
`message` exactly at its initial value in the final context. -/
theorem claim_C9_witness :
    Obj.get [("message", Value.vstr "Initial"), ("count", Value.vint 15)] "message"
      = Obj.get [("message", Value.vstr "Initial"), ("count", Value.vint 5)] "message" :=
  claim_C9 (fun n => (n : Int))
    [.task ⟨"T", fun _ => .ok (some [("count", Value.vint 15)]), none, none⟩]
    "message"
    [("message", Value.vstr "Initial"), ("count", Value.vint 5)]
    [("message", Value.vstr "Initial"), ("count", Value.vint 15)]
    [.start "T", .call "T", .succeed "T"] 3
    (by
      intro t ht c u hu
      simp [realTasks] at ht
      subst ht
      simp at hu
      subst hu
      rfl)
    rfl

/-- Witness for claim C10: a task whose work succeeds with an update but
whose `onSuccess` throws `cb boom` yields a `fail` notification, discards the
update, skips the following task `C`, and rejects with the composite message
built from the `onSuccess` exception. -/
theorem claim_C10_witness :
    runLoop (fun n => (n : Int))
        [.task ⟨"T", fun _ => .ok (some [("x", Value.vint 1)]),
          some (fun _ _ => .error (.err ⟨"cb boom"⟩)), none⟩,
         .task ⟨"C", fun _ => .ok none, none, none⟩]
        [] 1
      = ([.start "T", .call "T", .fail "T"], 3,
         .error ⟨"Task \"T\" failed: cb boom", ⟨"cb boom"⟩⟩) :=
  claim_C10 (fun n => (n : Int))
    ⟨"T", fun _ => .ok (some [("x", Value.vint 1)]),
      some (fun _ _ => .error (.err ⟨"cb boom"⟩)), none⟩
    [.task ⟨"C", fun _ => .ok none, none, none⟩]
    [] 1 (fun _ _ => .error (.err ⟨"cb boom"⟩))
    (some [("x", Value.vint 1)]) (.err ⟨"cb boom"⟩) rfl rfl rfl

end Tasker
